import Mathlib

/-!
Verification of `packages/gatsby-plugin-page-creator/src/gatsby-node.ts`.

The file embeds the plugin's reconciliation engine (`createPagesStatefully`),
the collection-registry startup scan (`onPreInit`) and the `gatsbyPath`
field resolver (`setFieldsOnGraphQLNodeType`) as pure Lean functions, and
proves the specified properties about them.

External collaborators that live in other files of the repository
(`create-page-wrapper.ts`, `gatsby-page-utils`, `derive-path.ts`,
`validate-path-query.ts`, `collection-extract-query-string.ts`) are modelled
from the specification; each such definition says so in its doc comment.
-/

namespace PageCreator

/-- Join of the pages directory with a watched relative path;
embeds `systemPath.join(pagesDirectory, path)` as used on line 114. -/
def joinPath (dir rel : String) : String := dir ++ "/" ++ rel

/-- Strip the (last) extension of a file path: `about.js` becomes `about`.
Implemented on the character list so that it evaluates by kernel reduction. -/
def dropExtension (p : String) : String :=
  match p.data.reverse.dropWhile (fun c => decide (c ≠ '.')) with
  | [] => p
  | _ :: rest => String.mk rest.reverse

/-- Modelled from the spec: `createPath` from `gatsby-page-utils` is not under
src/. It maps a relative page file to its route: strip the extension and lead
with a slash, so `about.js` yields `/about` (spec section 8). -/
def createPath (rel : String) : String := "/" ++ dropExtension rel

/-- A generated page: identity is the pair (route string, owning component
file), mirroring the arguments of the external createPage/deletePage calls. -/
structure GeneratedPage where
  path : String
  component : String
deriving DecidableEq, Repr

/-- The page built for a relative file under the pages directory. -/
def mkPage (dir rel : String) : GeneratedPage :=
  { path := createPath rel, component := joinPath dir rel }

/-- Modelled from the spec: the external page registry's create call is
idempotent (spec section 6), keyed by the page identity. -/
def createPageAct (pages : List GeneratedPage) (pg : GeneratedPage) : List GeneratedPage :=
  if pg ∈ pages then pages else pg :: pages

/-- Modelled from the spec: the external page registry's delete call removes
the page with the given route and owning component (spec section 6). -/
def deletePageAct (pages : List GeneratedPage) (route comp : String) : List GeneratedPage :=
  pages.filter fun p => decide ¬(p.path = route ∧ p.component = comp)

/-- Modelled from the spec: `createPage` from `create-page-wrapper.ts` is not
under src/; it creates the generated page for a source file through the
external page registry. -/
def createPage (file dir : String) (pages : List GeneratedPage) : List GeneratedPage :=
  createPageAct pages (mkPage dir file)

/-- JS `Set.prototype.add`: insert if not already a member. -/
def knownAdd (ks : List String) (p : String) : List String :=
  if p ∈ ks then ks else p :: ks

/-- JS `Set.prototype.delete`: remove the path from the set. -/
def knownDelete (ks : List String) (p : String) : List String :=
  ks.filter fun q => decide (q ≠ p)

/-- State owned by one `createPagesStatefully` session: the registered pages
(`store.getState().pages`) and the `knownFiles` set (line 84). -/
structure EngineState where
  pages : List GeneratedPage
  knownFiles : List String
deriving DecidableEq, Repr

/-- The `addedPath` watch callback, lines 89-110: create the page and track
the path only when it is not already known. -/
def onFileAdded (dir : String) (st : EngineState) (addedPath : String) : EngineState :=
  if addedPath ∈ st.knownFiles then st
  else
    { pages := createPage addedPath dir st.pages
      knownFiles := knownAdd st.knownFiles addedPath }

/-- The `removedPath` watch callback, lines 111-132: for each registered page
whose component is the joined path, call deletePage with the derived route and
that component; then drop the path from `knownFiles` unconditionally. -/
def onFileRemoved (dir : String) (st : EngineState) (removedPath : String) : EngineState :=
  { pages := st.pages.foldl
      (fun acc page =>
        if page.component = joinPath dir removedPath then
          deletePageAct acc (createPath removedPath) (joinPath dir removedPath)
        else acc)
      st.pages
    knownFiles := knownDelete st.knownFiles removedPath }

/-- Lines 79-84: initial scan creates a page for every globbed file and seeds
`knownFiles` with the file list. -/
def initialState (dir : String) (files : List String) : EngineState :=
  { pages := files.foldl (fun acc file => createPage file dir acc) []
    knownFiles := files.foldl knownAdd [] }

/-- One watch event, as delivered by the external `watchDirectory`. -/
inductive WatchEvent where
  | added (path : String)
  | removed (path : String)
deriving DecidableEq, Repr

/-- Dispatch one watch event to the matching callback (lines 86-132). -/
def applyEvent (dir : String) (st : EngineState) (e : WatchEvent) : EngineState :=
  match e with
  | .added p => onFileAdded dir st p
  | .removed p => onFileRemoved dir st p

/-- The engine state after the initial scan over `files` followed by a
sequence of watch events. -/
def runEngine (dir : String) (files : List String) (events : List WatchEvent) : EngineState :=
  events.foldl (applyEvent dir) (initialState dir files)

/-! Basic membership lemmas about the set and registry operations. -/

theorem mem_createPageAct {pages : List GeneratedPage} {pg x : GeneratedPage} :
    x ∈ createPageAct pages pg ↔ x = pg ∨ x ∈ pages := by
  unfold createPageAct
  split
  · constructor
    · exact fun h => Or.inr h
    · rintro (rfl | h) <;> assumption
  · simp [or_comm]

theorem mem_deletePageAct {pages : List GeneratedPage} {route comp : String}
    {x : GeneratedPage} :
    x ∈ deletePageAct pages route comp ↔
      x ∈ pages ∧ ¬(x.path = route ∧ x.component = comp) := by
  unfold deletePageAct
  simp [List.mem_filter]
  tauto

theorem mem_knownAdd {ks : List String} {p q : String} :
    q ∈ knownAdd ks p ↔ q = p ∨ q ∈ ks := by
  unfold knownAdd
  split
  · constructor
    · exact fun h => Or.inr h
    · rintro (rfl | h) <;> assumption
  · simp [or_comm]

theorem mem_knownDelete {ks : List String} {p q : String} :
    q ∈ knownDelete ks p ↔ q ∈ ks ∧ q ≠ p := by
  unfold knownDelete
  simp [List.mem_filter]

theorem joinPath_right_injective {dir a b : String} (h : joinPath dir a = joinPath dir b) :
    a = b := by
  unfold joinPath at h
  have hd : (dir ++ "/" ++ a).data = (dir ++ "/" ++ b).data := congrArg String.data h
  simp only [String.data_append] at hd
  have hab := List.append_cancel_left hd
  cases a; cases b
  exact congrArg String.mk (by simpa using hab)

theorem mkPage_component_inj {dir a b : String}
    (h : (mkPage dir a).component = (mkPage dir b).component) : a = b :=
  joinPath_right_injective h

/-! Shape of the removed-path callback: the `forEach` loop over the page store
is a fold whose only write is the keyed deletePage call. -/

theorem removeFold_mem (route comp : String) (l : List GeneratedPage) :
    ∀ (acc : List GeneratedPage) (pg : GeneratedPage),
      pg ∈ l.foldl
          (fun acc page =>
            if page.component = comp then deletePageAct acc route comp else acc)
          acc ↔
        pg ∈ acc ∧
          ((∃ page ∈ l, page.component = comp) →
            ¬(pg.path = route ∧ pg.component = comp)) := by
  induction l with
  | nil => intro acc pg; simp
  | cons hd tl ih =>
    intro acc pg
    rw [List.foldl_cons]
    by_cases hc : hd.component = comp
    · rw [if_pos hc, ih, mem_deletePageAct]
      constructor
      · rintro ⟨⟨hmem, hk⟩, _⟩
        exact ⟨hmem, fun _ => hk⟩
      · rintro ⟨hmem, himp⟩
        have hk := himp ⟨hd, List.mem_cons_self _ _, hc⟩
        exact ⟨⟨hmem, hk⟩, fun _ => hk⟩
    · rw [if_neg hc, ih]
      constructor
      · rintro ⟨hmem, himp⟩
        refine ⟨hmem, fun hex => ?_⟩
        rcases hex with ⟨page, hpm, hpc⟩
        rcases List.mem_cons.mp hpm with rfl | hpt
        · exact absurd hpc hc
        · exact himp ⟨page, hpt, hpc⟩
      · rintro ⟨hmem, himp⟩
        refine ⟨hmem, fun hex => ?_⟩
        rcases hex with ⟨page, hpt, hpc⟩
        exact himp ⟨page, List.mem_cons_of_mem _ hpt, hpc⟩

theorem removeFold_no_match (route comp : String) (l : List GeneratedPage) :
    ∀ (acc : List GeneratedPage), (∀ page ∈ l, page.component ≠ comp) →
      l.foldl
        (fun acc page =>
          if page.component = comp then deletePageAct acc route comp else acc)
        acc = acc := by
  induction l with
  | nil => intro acc _; rfl
  | cons hd tl ih =>
    intro acc h
    rw [List.foldl_cons, if_neg (h hd (List.mem_cons_self _ _))]
    exact ih acc fun page hp => h page (List.mem_cons_of_mem _ hp)

theorem onFileAdded_of_mem {dir : String} {st : EngineState} {p : String}
    (h : p ∈ st.knownFiles) : onFileAdded dir st p = st := by
  unfold onFileAdded
  rw [if_pos h]

theorem onFileAdded_pages_of_not_mem {dir : String} {st : EngineState} {p : String}
    (h : p ∉ st.knownFiles) : (onFileAdded dir st p).pages = createPage p dir st.pages := by
  unfold onFileAdded
  rw [if_neg h]

theorem onFileAdded_knownFiles_of_not_mem {dir : String} {st : EngineState} {p : String}
    (h : p ∉ st.knownFiles) : (onFileAdded dir st p).knownFiles = p :: st.knownFiles := by
  unfold onFileAdded
  rw [if_neg h]
  show knownAdd st.knownFiles p = p :: st.knownFiles
  unfold knownAdd
  rw [if_neg h]

theorem onFileRemoved_knownFiles (dir : String) (st : EngineState) (p : String) :
    (onFileRemoved dir st p).knownFiles = knownDelete st.knownFiles p := rfl

theorem onFileRemoved_pages_mem (dir : String) (st : EngineState) (rp : String)
    (pg : GeneratedPage) :
    pg ∈ (onFileRemoved dir st rp).pages ↔
      pg ∈ st.pages ∧
        ((∃ page ∈ st.pages, page.component = joinPath dir rp) →
          ¬(pg.path = createPath rp ∧ pg.component = joinPath dir rp)) :=
  removeFold_mem (createPath rp) (joinPath dir rp) st.pages st.pages pg

theorem mem_initialScan_pages (dir : String) (files : List String) :
    ∀ (acc : List GeneratedPage) (pg : GeneratedPage),
      pg ∈ files.foldl (fun acc file => createPage file dir acc) acc ↔
        pg ∈ acc ∨ ∃ f ∈ files, pg = mkPage dir f := by
  induction files with
  | nil => intro acc pg; simp
  | cons hd tl ih =>
    intro acc pg
    rw [List.foldl_cons, ih]
    show pg ∈ createPageAct acc (mkPage dir hd) ∨ _ ↔ _
    rw [mem_createPageAct]
    simp only [List.mem_cons]
    constructor
    · rintro ((rfl | hacc) | ⟨f, hf, rfl⟩)
      · exact Or.inr ⟨hd, Or.inl rfl, rfl⟩
      · exact Or.inl hacc
      · exact Or.inr ⟨f, Or.inr hf, rfl⟩
    · rintro (hacc | ⟨f, (rfl | hf), rfl⟩)
      · exact Or.inl (Or.inr hacc)
      · exact Or.inl (Or.inl rfl)
      · exact Or.inr ⟨f, hf, rfl⟩

theorem mem_foldl_knownAdd (files : List String) :
    ∀ (acc : List String) (p : String),
      p ∈ files.foldl knownAdd acc ↔ p ∈ acc ∨ p ∈ files := by
  induction files with
  | nil => intro acc p; simp
  | cons hd tl ih =>
    intro acc p
    rw [List.foldl_cons, ih, mem_knownAdd]
    simp only [List.mem_cons]
    tauto

/-- The reconciliation invariant: the registered pages are exactly the pages
built from the paths in the known-file set. -/
def EngineInv (dir : String) (st : EngineState) : Prop :=
  ∀ pg, pg ∈ st.pages ↔ ∃ f ∈ st.knownFiles, pg = mkPage dir f

theorem engineInv_initial (dir : String) (files : List String) :
    EngineInv dir (initialState dir files) := by
  intro pg
  show pg ∈ files.foldl (fun acc file => createPage file dir acc) [] ↔
    ∃ f ∈ files.foldl knownAdd [], pg = mkPage dir f
  rw [mem_initialScan_pages]
  simp only [List.not_mem_nil, false_or]
  constructor
  · rintro ⟨f, hf, rfl⟩
    exact ⟨f, (mem_foldl_knownAdd files [] f).mpr (Or.inr hf), rfl⟩
  · rintro ⟨f, hf, rfl⟩
    rcases (mem_foldl_knownAdd files [] f).mp hf with h | h
    · exact absurd h (List.not_mem_nil f)
    · exact ⟨f, h, rfl⟩

theorem engineInv_added (dir : String) (st : EngineState) (p : String)
    (h : EngineInv dir st) : EngineInv dir (onFileAdded dir st p) := by
  intro pg
  by_cases hmem : p ∈ st.knownFiles
  · rw [onFileAdded_of_mem hmem]
    exact h pg
  · rw [onFileAdded_pages_of_not_mem hmem, onFileAdded_knownFiles_of_not_mem hmem]
    show pg ∈ createPageAct st.pages (mkPage dir p) ↔ _
    rw [mem_createPageAct]
    simp only [List.mem_cons]
    constructor
    · rintro (rfl | hpg)
      · exact ⟨p, Or.inl rfl, rfl⟩
      · obtain ⟨f, hf, rfl⟩ := (h pg).mp hpg
        exact ⟨f, Or.inr hf, rfl⟩
    · rintro ⟨f, (rfl | hf), rfl⟩
      · exact Or.inl rfl
      · exact Or.inr ((h _).mpr ⟨f, hf, rfl⟩)

theorem engineInv_removed (dir : String) (st : EngineState) (rp : String)
    (h : EngineInv dir st) : EngineInv dir (onFileRemoved dir st rp) := by
  intro pg
  rw [onFileRemoved_pages_mem, onFileRemoved_knownFiles]
  constructor
  · rintro ⟨hmem, himp⟩
    obtain ⟨f, hf, rfl⟩ := (h pg).mp hmem
    refine ⟨f, (mem_knownDelete).mpr ⟨hf, ?_⟩, rfl⟩
    rintro rfl
    exact himp ⟨mkPage dir f, hmem, rfl⟩ ⟨rfl, rfl⟩
  · rintro ⟨f, hf, rfl⟩
    obtain ⟨hfk, hne⟩ := (mem_knownDelete).mp hf
    refine ⟨(h _).mpr ⟨f, hfk, rfl⟩, fun _ hkey => ?_⟩
    exact hne (joinPath_right_injective hkey.2)

theorem engineInv_foldl (dir : String) (events : List WatchEvent) :
    ∀ st, EngineInv dir st → EngineInv dir (events.foldl (applyEvent dir) st) := by
  induction events with
  | nil => intro st h; exact h
  | cons e tl ih =>
    intro st h
    rw [List.foldl_cons]
    refine ih _ ?_
    cases e with
    | added p => exact engineInv_added dir st p h
    | removed p => exact engineInv_removed dir st p h

theorem engineInv_runEngine (dir : String) (files : List String)
    (events : List WatchEvent) : EngineInv dir (runEngine dir files events) :=
  engineInv_foldl dir events _ (engineInv_initial dir files)

/-- C1: for every reachable state of the page-sync engine — after the initial
scan and after processing any sequence of add/remove watch events — a path is
a member of the known-file set if and only if at least one generated page
whose owning component file is that path (joined under the pages directory)
currently exists. -/
theorem knownFileSet_iff_generatedPage_exists (dir : String) (files : List String)
    (events : List WatchEvent) (p : String) :
    p ∈ (runEngine dir files events).knownFiles ↔
      ∃ pg ∈ (runEngine dir files events).pages, pg.component = joinPath dir p := by
  have hinv := engineInv_runEngine dir files events
  constructor
  · intro hp
    exact ⟨mkPage dir p, (hinv _).mpr ⟨p, hp, rfl⟩, rfl⟩
  · rintro ⟨pg, hpg, hcomp⟩
    obtain ⟨f, hf, rfl⟩ := (hinv pg).mp hpg
    have hfe : f = p := joinPath_right_injective hcomp
    exact hfe ▸ hf

theorem EngineState.ext_pages_known : ∀ {a b : EngineState},
    a.pages = b.pages → a.knownFiles = b.knownFiles → a = b := by
  rintro ⟨pa, ka⟩ ⟨pb, kb⟩ h1 h2
  cases h1; cases h2; rfl

theorem knownDelete_of_not_mem {ks : List String} {p : String} (h : p ∉ ks) :
    knownDelete ks p = ks :=
  List.filter_eq_self.mpr fun _ hq => decide_eq_true fun he => h (he ▸ hq)

theorem onFileRemoved_noop {dir : String} {st : EngineState} {p : String}
    (hknown : p ∉ st.knownFiles)
    (hpages : ∀ pg ∈ st.pages, pg.component ≠ joinPath dir p) :
    onFileRemoved dir st p = st := by
  refine EngineState.ext_pages_known ?_ ?_
  · exact removeFold_no_match (createPath p) (joinPath dir p) st.pages st.pages hpages
  · rw [onFileRemoved_knownFiles]
    exact knownDelete_of_not_mem hknown

theorem onFileAdded_mem_self (dir : String) (st : EngineState) (p : String) :
    p ∈ (onFileAdded dir st p).knownFiles := by
  by_cases h : p ∈ st.knownFiles
  · rw [onFileAdded_of_mem h]; exact h
  · rw [onFileAdded_knownFiles_of_not_mem h]; exact List.mem_cons_self _ _

theorem onFileAdded_twice (dir : String) (st : EngineState) (p : String) :
    onFileAdded dir (onFileAdded dir st p) p = onFileAdded dir st p :=
  onFileAdded_of_mem (onFileAdded_mem_self dir st p)

theorem onFileAdded_iterate (dir : String) (st : EngineState) (p : String) :
    ∀ n : Nat, (fun s => onFileAdded dir s p)^[n] (onFileAdded dir st p) =
      onFileAdded dir st p
  | 0 => rfl
  | n + 1 => by
    rw [Function.iterate_succ_apply]
    show (fun s => onFileAdded dir s p)^[n]
      (onFileAdded dir (onFileAdded dir st p) p) = _
    rw [onFileAdded_twice]
    exact onFileAdded_iterate dir st p n

/-- C2: an `added` watch event for a path already in the known-file set is a
no-op (no page created, state unchanged); for an unknown path the handler
creates the page and inserts the path; hence any number of duplicate `added`
events for one path have the effect of exactly one. -/
theorem onFileAdded_duplicate_noop (dir : String) (st : EngineState) (p : String) :
    (p ∈ st.knownFiles → onFileAdded dir st p = st) ∧
    (p ∉ st.knownFiles →
      (onFileAdded dir st p).pages = createPage p dir st.pages ∧
      (onFileAdded dir st p).knownFiles = p :: st.knownFiles) ∧
    ∀ n : Nat, (fun s => onFileAdded dir s p)^[n + 1] st = onFileAdded dir st p := by
  refine ⟨fun h => onFileAdded_of_mem h,
    fun h => ⟨onFileAdded_pages_of_not_mem h, onFileAdded_knownFiles_of_not_mem h⟩,
    fun n => ?_⟩
  rw [Function.iterate_succ_apply]
  exact onFileAdded_iterate dir st p n

/-- Witness for C2 at a concrete engine state. -/
theorem onFileAdded_duplicate_noop_witness :
    ("a.js" ∈ (initialState "d" ["a.js"]).knownFiles ∧
      onFileAdded "d" (initialState "d" ["a.js"]) "a.js" = initialState "d" ["a.js"]) ∧
    ("b.js" ∉ (initialState "d" []).knownFiles ∧
      (onFileAdded "d" (initialState "d" []) "b.js").knownFiles =
        "b.js" :: (initialState "d" []).knownFiles) :=
  ⟨⟨by decide,
    (onFileAdded_duplicate_noop "d" (initialState "d" ["a.js"]) "a.js").1 (by decide)⟩,
   ⟨by decide,
    ((onFileAdded_duplicate_noop "d" (initialState "d" []) "b.js").2.1 (by decide)).2⟩⟩

/-- C3: the `removed` watch event handler always completes, removes the path
from the known-file set unconditionally (whether or not a matching page
existed), and is a no-op on a state that tracks neither the path nor a
matching page. -/
theorem onFileRemoved_tolerant (dir : String) (st : EngineState) (p : String) :
    (onFileRemoved dir st p).knownFiles = knownDelete st.knownFiles p ∧
    p ∉ (onFileRemoved dir st p).knownFiles ∧
    ((p ∉ st.knownFiles ∧ ∀ pg ∈ st.pages, pg.component ≠ joinPath dir p) →
      onFileRemoved dir st p = st) := by
  refine ⟨onFileRemoved_knownFiles dir st p, ?_, fun h => onFileRemoved_noop h.1 h.2⟩
  rw [onFileRemoved_knownFiles]
  intro hmem
  exact ((mem_knownDelete).mp hmem).2 rfl

/-- Witness for C3: a `removed` event for an untracked path on a concrete
state is a no-op. -/
theorem onFileRemoved_tolerant_witness :
    ("b.js" ∉ (initialState "d" ["a.js"]).knownFiles ∧
      (∀ pg ∈ (initialState "d" ["a.js"]).pages, pg.component ≠ joinPath "d" "b.js")) ∧
    onFileRemoved "d" (initialState "d" ["a.js"]) "b.js" = initialState "d" ["a.js"] :=
  ⟨⟨by decide, by decide⟩,
   (onFileRemoved_tolerant "d" (initialState "d" ["a.js"]) "b.js").2.2
     ⟨by decide, by decide⟩⟩

/-- C4: on any reachable engine state, processing a `removed` event for a
relative path deletes exactly the registered pages whose owning component is
the pages directory joined with that path, and leaves every other page
registered. -/
theorem removedEvent_frame (dir : String) (files : List String)
    (events : List WatchEvent) (rp : String) (pg : GeneratedPage) :
    pg ∈ (runEngine dir files (events ++ [WatchEvent.removed rp])).pages ↔
      pg ∈ (runEngine dir files events).pages ∧ pg.component ≠ joinPath dir rp := by
  have hrun : runEngine dir files (events ++ [WatchEvent.removed rp]) =
      onFileRemoved dir (runEngine dir files events) rp := by
    unfold runEngine
    rw [List.foldl_append]
    rfl
  rw [hrun]
  have hinv := engineInv_runEngine dir files events
  rw [onFileRemoved_pages_mem]
  constructor
  · rintro ⟨hmem, himp⟩
    refine ⟨hmem, fun hcomp => ?_⟩
    obtain ⟨f, hf, rfl⟩ := (hinv pg).mp hmem
    have hfe : f = rp := joinPath_right_injective hcomp
    subst hfe
    exact himp ⟨mkPage dir f, hmem, rfl⟩ ⟨rfl, rfl⟩
  · rintro ⟨hmem, hne⟩
    exact ⟨hmem, fun _ hkey => hne hkey.2⟩

/-- Outcome of one `createPagesStatefully` run: either `reporter.panic`
aborted it (error map id 1 is fatal), or a session started with the
post-initial-scan state and a live watch. -/
inductive StatefulResult where
  | panicked (sourceMessage : String)
  | session (st : EngineState) (watching : Bool)
deriving DecidableEq, Repr

def StatefulResult.isPanicked : StatefulResult → Bool
  | .panicked _ => true
  | .session _ _ => false

/-- Lines 44-133 of gatsby-node.ts. `fsExists` stands for the external
`existsSync`, `files` for the glob result; `reporter.panic` aborts the run.
Modelled from the spec: `systemPath.resolve` is collapsed to joining under
the working directory (no claim depends on absolute-path normalization). -/
def createPagesStatefully (fsExists : String → Bool) (files : List String)
    (cwd pagesPath : String) (pathCheck : Bool) : StatefulResult :=
  if pagesPath = "" then
    .panicked "path is a required option for gatsby-plugin-page-creator"
  else if pathCheck && !fsExists pagesPath then
    .panicked "The path passed to gatsby-plugin-page-creator does not exist on your file system"
  else
    .session (initialState (joinPath cwd pagesPath) files) true

/-- C6 counterexample: with the `pathCheck` option disabled (line 62 guards
the existence check behind it), a pages path that does not exist on disk does
not panic — the run scans and starts the watch session anyway. -/
theorem createPagesStatefully_no_panic_counterexample :
    createPagesStatefully (fun _ => false) ["a.js"] "/cwd" "pages" false =
      StatefulResult.session (initialState (joinPath "/cwd" "pages") ["a.js"]) true ∧
    (createPagesStatefully (fun _ => false) ["a.js"] "/cwd" "pages" false).isPanicked
      = false :=
  ⟨rfl, rfl⟩

/-- C6 (amended): if the pages path option is missing, or `pathCheck` is
enabled (its default) and the path does not exist on disk, the run panics
before any scan: no page is created and no watch session is started. -/
theorem createPagesStatefully_config_panic (fsExists : String → Bool)
    (files : List String) (cwd pagesPath : String) (pathCheck : Bool)
    (h : pagesPath = "" ∨ (pathCheck = true ∧ fsExists pagesPath = false)) :
    ∃ msg, createPagesStatefully fsExists files cwd pagesPath pathCheck =
      StatefulResult.panicked msg := by
  unfold createPagesStatefully
  rcases h with rfl | ⟨hpc, hex⟩
  · rw [if_pos rfl]
    exact ⟨_, rfl⟩
  · by_cases hp : pagesPath = ""
    · rw [if_pos hp]
      exact ⟨_, rfl⟩
    · rw [if_neg hp, if_pos (by rw [hpc, hex]; rfl)]
      exact ⟨_, rfl⟩

/-- Witness for the amended C6: both configuration failures panic at concrete
inputs. -/
theorem createPagesStatefully_config_panic_witness :
    (∃ msg, createPagesStatefully (fun _ => true) ["a.js"] "/cwd" "" true =
      StatefulResult.panicked msg) ∧
    (∃ msg, createPagesStatefully (fun _ => false) ["a.js"] "/cwd" "pages" true =
      StatefulResult.panicked msg) :=
  ⟨createPagesStatefully_config_panic _ _ _ _ _ (Or.inl rfl),
   createPagesStatefully_config_panic _ _ _ _ _ (Or.inr ⟨rfl, rfl⟩)⟩

/-! Collection registry: the `onPreInit` startup scan and `knownCollections`. -/

/-- Error taxonomy of the plugin's reporter error map (lines 202-244). -/
inductive PageCreatorError where
  | queryShapeError (queryString : String)
  | fieldResolutionError (slugPart : String) (transformedKey : String)
  | templateSyntaxError (part : String)
deriving DecidableEq, Repr

/-- One selection of a parsed GraphQL selection set: a field with its own
selection set, or a fragment spread. -/
inductive QuerySelection where
  | fieldSel (name : String) (subs : List QuerySelection)
  | fragmentSpread (name : String)

/-- The parsed query of a template file: its raw text plus the selection set
of its first definition (`ast.definitions[0].selectionSet`, line 268). -/
structure QueryAst where
  raw : String
  selections : List QuerySelection

/-- The fixed fragment identifier required by the collection query shape
(error map id 2, lines 209-216). -/
def requiredCollectionFragment : String := "CollectionPagesQueryFragment"

/-- Modelled from the spec: the QueryValidator (spec section 4.2) lives in
`collection-extract-query-string.ts`, which is not under src/. The query must
select a collection field whose selection set uses the required collection
fragment spread; any other shape is an error. -/
def queryShapeOk (q : QueryAst) : Bool :=
  match q.selections with
  | QuerySelection.fieldSel _ subs :: _ =>
    subs.any fun s =>
      match s with
      | QuerySelection.fragmentSpread n => decide (n = requiredCollectionFragment)
      | _ => false
  | _ => false

/-- Modelled from the spec: validation failure is a QueryShapeError reporting
the full offending query text (spec section 4.2). -/
def validateQueryShape (q : QueryAst) : Except PageCreatorError Unit :=
  if queryShapeOk q then Except.ok () else Except.error (.queryShapeError q.raw)

/-- The name of a selection node (`.name.value` on either AST node kind). -/
def selectionName : QuerySelection → String
  | .fieldSel n _ => n
  | .fragmentSpread n => n

/-- Line 268: `ast.definitions[0].selectionSet.selections[0].name.value`. -/
def headSelectionName (q : QueryAst) : String :=
  match q.selections with
  | [] => ""
  | s :: _ => selectionName s

/-- The process-wide `knownCollections` map (line 25). -/
abbrev CollectionRegistry := List (String × String)

/-- JS `Map.prototype.set`: the new binding shadows any earlier one. -/
def knownCollectionsSet (reg : CollectionRegistry) (k v : String) :
    CollectionRegistry :=
  (k, v) :: reg

/-- JS `Map.prototype.get`. -/
def knownCollectionsLookup (reg : CollectionRegistry) (k : String) :
    Option String :=
  match reg with
  | [] => none
  | (k', v) :: rest => if k' = k then some v else knownCollectionsLookup rest k

/-- JS `Map.prototype.has` (line 153). -/
def knownCollectionsHas (reg : CollectionRegistry) (k : String) : Bool :=
  (knownCollectionsLookup reg k).isSome

/-- Per-file step of the `onPreInit` startup scan (lines 255-272).
`extracted` is the template file's raw query as produced by the external
`collectionExtractQueryString`; `none` is the line-264 early return.
Modelled from the spec: the extraction pipeline validates the query shape and
reports a QueryShapeError without registering the file on failure; on success
the file is registered under the query's first selection name (line 268). -/
def onPreInitFileStep (reg : CollectionRegistry) (relativePath : String)
    (extracted : Option QueryAst) : CollectionRegistry × Option PageCreatorError :=
  match extracted with
  | none => (reg, none)
  | some q =>
    match validateQueryShape q with
    | .error e => (reg, some e)
    | .ok _ => (knownCollectionsSet reg (headSelectionName q) relativePath, none)

/-- C5: a template file whose extracted query does not have the required
collection fragment shape makes the startup scan report a QueryShapeError for
that file, and no entry for the file is inserted into knownCollections. -/
theorem collectionScan_rejects_bad_queryShape (reg : CollectionRegistry)
    (relativePath : String) (q : QueryAst) (h : queryShapeOk q = false) :
    onPreInitFileStep reg relativePath (some q) =
      (reg, some (PageCreatorError.queryShapeError q.raw)) ∧
    ∀ k, knownCollectionsLookup (onPreInitFileStep reg relativePath (some q)).1 k =
      knownCollectionsLookup reg k := by
  have hstep : onPreInitFileStep reg relativePath (some q) =
      (reg, some (PageCreatorError.queryShapeError q.raw)) := by
    simp [onPreInitFileStep, validateQueryShape, h]
  exact ⟨hstep, fun k => by rw [hstep]⟩

/-- Witness for C5: a query selecting the collection field without the
required fragment spread is rejected and left unregistered. -/
theorem collectionScan_rejects_bad_queryShape_witness :
    queryShapeOk ⟨"allProduct nodes id", [QuerySelection.fieldSel "allProduct" []]⟩
      = false ∧
    onPreInitFileStep [] "product.js"
        (some ⟨"allProduct nodes id", [QuerySelection.fieldSel "allProduct" []]⟩) =
      ([], some (PageCreatorError.queryShapeError "allProduct nodes id")) :=
  ⟨rfl,
   (collectionScan_rejects_bad_queryShape [] "product.js"
     ⟨"allProduct nodes id", [QuerySelection.fieldSel "allProduct" []]⟩ rfl).1⟩

/-- C8: registering two template files whose queries carry the same plural
type name is not rejected — both steps succeed, the second silently
overwrites the first, and a lookup of that name returns the last-registered
file path. -/
theorem knownCollections_last_write_wins (reg : CollectionRegistry)
    (rp1 rp2 : String) (q1 q2 : QueryAst)
    (h1 : queryShapeOk q1 = true) (h2 : queryShapeOk q2 = true)
    (hk : headSelectionName q1 = headSelectionName q2) :
    (onPreInitFileStep reg rp1 (some q1)).2 = none ∧
    (onPreInitFileStep (onPreInitFileStep reg rp1 (some q1)).1 rp2 (some q2)).2
      = none ∧
    knownCollectionsLookup
        (onPreInitFileStep (onPreInitFileStep reg rp1 (some q1)).1 rp2 (some q2)).1
        (headSelectionName q1) = some rp2 := by
  have hstep1 : onPreInitFileStep reg rp1 (some q1) =
      (knownCollectionsSet reg (headSelectionName q1) rp1, none) := by
    simp [onPreInitFileStep, validateQueryShape, h1]
  have hstep2 : ∀ r : CollectionRegistry, onPreInitFileStep r rp2 (some q2) =
      (knownCollectionsSet r (headSelectionName q2) rp2, none) := by
    intro r
    simp [onPreInitFileStep, validateQueryShape, h2]
  rw [hstep1, hstep2]
  refine ⟨rfl, rfl, ?_⟩
  rw [hk]
  simp [knownCollectionsSet, knownCollectionsLookup]

/-- Witness for C8 at two concrete template files sharing the plural type
name `allProduct`. -/
theorem knownCollections_last_write_wins_witness :
    queryShapeOk ⟨"q1", [QuerySelection.fieldSel "allProduct"
        [QuerySelection.fragmentSpread "CollectionPagesQueryFragment"]]⟩ = true ∧
    queryShapeOk ⟨"q2", [QuerySelection.fieldSel "allProduct"
        [QuerySelection.fragmentSpread "CollectionPagesQueryFragment"]]⟩ = true ∧
    knownCollectionsLookup
        (onPreInitFileStep
          (onPreInitFileStep [] "one.js"
            (some ⟨"q1", [QuerySelection.fieldSel "allProduct"
              [QuerySelection.fragmentSpread "CollectionPagesQueryFragment"]]⟩)).1
          "two.js"
          (some ⟨"q2", [QuerySelection.fieldSel "allProduct"
            [QuerySelection.fragmentSpread "CollectionPagesQueryFragment"]]⟩)).1
        (headSelectionName ⟨"q1", [QuerySelection.fieldSel "allProduct"
          [QuerySelection.fragmentSpread "CollectionPagesQueryFragment"]]⟩)
      = some "two.js" :=
  ⟨rfl, rfl,
   (knownCollections_last_write_wins [] "one.js" "two.js"
     ⟨"q1", [QuerySelection.fieldSel "allProduct"
       [QuerySelection.fragmentSpread "CollectionPagesQueryFragment"]]⟩
     ⟨"q2", [QuerySelection.fieldSel "allProduct"
       [QuerySelection.fragmentSpread "CollectionPagesQueryFragment"]]⟩
     rfl rfl rfl).2.2⟩

/-! The gatsbyPath field resolver (`setFieldsOnGraphQLNodeType`, lines
144-196): path templates, route derivation and parent resolution. -/

/-- A JS value as the resolver sees one: a string, an object with ordered
named fields, or undefined (also standing for null/absent). -/
inductive JsValue where
  | str (s : String)
  | obj (fields : List (String × JsValue))
  | undef

/-- JS property read on an object's field list. -/
def getField : List (String × JsValue) → String → Option JsValue
  | [], _ => none
  | (k', v) :: rest, k => if k' = k then some v else getField rest k

/-- JS property assignment: replace in place, append when absent. -/
def setField : List (String × JsValue) → String → JsValue → List (String × JsValue)
  | [], k, v => [(k, v)]
  | (k', v') :: rest, k, v =>
    if k' = k then (k, v) :: rest else (k', v') :: setField rest k v

/-- Lines 171-176: the traversal root handed to derivePath. Only when
`typeof source.parent === "string"` is the parent field replaced by
`getNode(source.parent)`; otherwise the source is used as-is. -/
def resolverTraversalRoot (getNode : String → JsValue)
    (source : List (String × JsValue)) : List (String × JsValue) :=
  match getField source "parent" with
  | some (JsValue.str s) => setField source "parent" (getNode s)
  | _ => source

/-- One parsed segment of a path template: literal text or a field reference
carrying a dotted field path and a non-optional flag. -/
inductive TemplateSegment where
  | literal (text : String)
  | fieldRef (fieldPath : List String) (required : Bool)

def braceOpenChar : Char := Char.ofNat 123

def braceCloseChar : Char := Char.ofNat 125

/-- Split a character list on a separator character (structurally, so it
evaluates by kernel reduction). -/
def splitOnChar (sep : Char) : List Char → List (List Char)
  | [] => [[]]
  | c :: rest =>
    let r := splitOnChar sep rest
    if c = sep then [] :: r
    else
      match r with
      | [] => [[c]]
      | g :: gs => (c :: g) :: gs

/-- Strip a trailing bang from the last dotted component, reporting whether
one was present. -/
def stripBangLast (parts : List (List Char)) : List (List Char) × Bool :=
  match parts.getLast? with
  | some lastPart =>
    match lastPart.getLast? with
    | some c =>
      if c = '!' then (parts.dropLast ++ [lastPart.dropLast], true)
      else (parts, false)
    | none => (parts, false)
  | none => (parts, false)

/-- Modelled from the spec: PathTemplateParser (spec section 4.1), part of
`derive-path.ts` which is not under src/. A segment containing a brace must
be exactly one bracket expression (a trailing bang may follow it, cf. the
spec section 8 example); inside the brackets the first dotted component is
the model name and is dropped; a trailing bang on the last field component
marks the reference non-optional; anything else is a TemplateSyntaxError
citing the segment text. -/
def parseSegment (seg : List Char) : Except PageCreatorError TemplateSegment :=
  if seg.any (fun c => (c == braceOpenChar) || (c == braceCloseChar)) then
    match (match seg.getLast? with
           | some c => if c = '!' then (seg.dropLast, true) else (seg, false)
           | none => (seg, false)) with
    | (core, bangOutside) =>
      match core.head?, core.getLast? with
      | some copen, some cclose =>
        if (copen == braceOpenChar) && (cclose == braceCloseChar) then
          if core.tail.dropLast.any
              (fun c => (c == braceOpenChar) || (c == braceCloseChar)) then
            Except.error (.templateSyntaxError (String.mk seg))
          else
            match splitOnChar '.' core.tail.dropLast with
            | [] => Except.error (.templateSyntaxError (String.mk seg))
            | [_] => Except.error (.templateSyntaxError (String.mk seg))
            | _ :: fieldParts =>
              match stripBangLast fieldParts with
              | (fp, bangInside) =>
                Except.ok (.fieldRef (fp.map String.mk) (bangOutside || bangInside))
        else Except.error (.templateSyntaxError (String.mk seg))
      | _, _ => Except.error (.templateSyntaxError (String.mk seg))
  else Except.ok (.literal (String.mk seg))

/-- Modelled from the spec: parse a relative template file path — strip the
extension, split on the path separator, parse each segment (spec section
4.1). -/
def parsePathTemplate (filePath : String) :
    Except PageCreatorError (List TemplateSegment) :=
  (splitOnChar '/' (dropExtension filePath).data).mapM parseSegment

/-- Join strings with a separator (structurally). -/
def joinSep (sep : String) : List String → String
  | [] => ""
  | [x] => x
  | x :: xs => x ++ sep ++ joinSep sep xs

/-- Modelled from the spec: canonical string form of a resolved value;
undefined/null after full traversal is treated as missing (section 4.4). -/
def jsToString : JsValue → Option String
  | .str s => some s
  | .obj _ => some "[object Object]"
  | .undef => none

/-- Dotted-path field traversal from the traversal root. -/
def traverseFields : JsValue → List String → Option JsValue
  | v, [] => some v
  | JsValue.obj fs, k :: rest =>
    match getField fs k with
    | some v => traverseFields v rest
    | none => none
  | _, _ :: _ => none

def joinDotted (parts : List String) : String := joinSep "." parts

/-- Modelled from the spec: PathDeriver per-segment rendering (section 4.4):
literal text verbatim; a field reference resolves its dotted path from the
record; a missing value renders an empty segment when optional and fails with
FieldResolutionError carrying the slug part and transformed key (error map
id 4) when required. -/
def renderSegment (record : JsValue) :
    TemplateSegment → Except PageCreatorError String
  | .literal t => Except.ok t
  | .fieldRef fp required =>
    match (traverseFields record fp).bind jsToString with
    | some s => Except.ok s
    | none =>
      if required then
        Except.error (.fieldResolutionError (joinDotted fp) (joinDotted fp))
      else Except.ok ""

/-- Modelled from the spec: `derivePath` from `derive-path.ts` is not under
src/. Parse the template, render every segment against the record, and join
with the separator into a separator-leading route; empty (optional) segments
collapse (spec sections 4.4 and 8). -/
def derivePath (filePath : String) (record : JsValue) :
    Except PageCreatorError String :=
  match parsePathTemplate filePath with
  | .error e => Except.error e
  | .ok segs =>
    match segs.mapM (renderSegment record) with
    | .error e => Except.error e
    | .ok parts => Except.ok ("/" ++ joinSep "/" (parts.filter fun s => !(s == "")))

/-- Modelled from the spec: `validatePathQuery` from `validate-path-query.ts`
is not under src/; modelled as a pure shape check of the gatsbyPath filePath
argument — it must parse as a path template. Its only inputs are the filePath
and the program's extensions (line 178). -/
def validatePathQuery (filePath : String) (_extensions : List String) :
    Except PageCreatorError Unit :=
  match parsePathTemplate filePath with
  | .error e => Except.error e
  | .ok _ => Except.ok ()

/-- The gatsbyPath resolver body (lines 162-181): shallow-copy the source,
realize a string-typed parent via getNode, validate the filePath argument,
then derive the route. -/
def gatsbyPathResolve (extensions : List String) (getNode : String → JsValue)
    (source : List (String × JsValue)) (filePath : String) :
    Except PageCreatorError String :=
  match validatePathQuery filePath extensions with
  | .error e => Except.error e
  | .ok _ => derivePath filePath (JsValue.obj (resolverTraversalRoot getNode source))

/-- C7: parent resolution in the gatsbyPath resolver is exactly one hop and
only for a string-typed parent. When the source's parent field holds a string
identifier, the traversal root used for derivation has that field replaced by
the record returned by getNode, and only getNode's value at that one
identifier can affect the result; when the parent field is absent or already
a realized (non-string) value, the source is used as-is and no lookup
influences the result. -/
theorem gatsbyPath_parent_single_hop (extensions : List String)
    (getNode : String → JsValue) (source : List (String × JsValue))
    (filePath : String) :
    (∀ s, getField source "parent" = some (JsValue.str s) →
      resolverTraversalRoot getNode source = setField source "parent" (getNode s) ∧
      ∀ g : String → JsValue, g s = getNode s →
        gatsbyPathResolve extensions g source filePath =
          gatsbyPathResolve extensions getNode source filePath) ∧
    ((∀ s, getField source "parent" ≠ some (JsValue.str s)) →
      resolverTraversalRoot getNode source = source ∧
      ∀ g : String → JsValue,
        gatsbyPathResolve extensions g source filePath =
          gatsbyPathResolve extensions getNode source filePath) := by
  constructor
  · intro s hs
    have hroot : ∀ g : String → JsValue,
        resolverTraversalRoot g source = setField source "parent" (g s) := by
      intro g
      unfold resolverTraversalRoot
      rw [hs]
    refine ⟨hroot getNode, fun g hg => ?_⟩
    unfold gatsbyPathResolve
    rw [hroot g, hroot getNode, hg]
  · intro hno
    have hroot : ∀ g : String → JsValue, resolverTraversalRoot g source = source := by
      intro g
      unfold resolverTraversalRoot
      cases hp : getField source "parent" with
      | none => rfl
      | some v =>
        cases v with
        | str s => exact absurd hp (hno s)
        | obj fs => rfl
        | undef => rfl
    refine ⟨hroot getNode, fun g => ?_⟩
    unfold gatsbyPathResolve
    rw [hroot g, hroot getNode]

/-- Witness for C7: a concrete record with a string parent identifier has the
parent hop applied; one with a realized parent object is used as-is. -/
theorem gatsbyPath_parent_single_hop_witness :
    (getField [("parent", JsValue.str "node-1"), ("slug", JsValue.str "hello")]
        "parent" = some (JsValue.str "node-1") ∧
      resolverTraversalRoot (fun _ => JsValue.obj [("name", JsValue.str "p")])
          [("parent", JsValue.str "node-1"), ("slug", JsValue.str "hello")] =
        setField [("parent", JsValue.str "node-1"), ("slug", JsValue.str "hello")]
          "parent"
          ((fun _ : String => JsValue.obj [("name", JsValue.str "p")]) "node-1")) ∧
    ((∀ s, getField [("parent", JsValue.obj [("name", JsValue.str "p")])]
        "parent" ≠ some (JsValue.str s)) ∧
      resolverTraversalRoot (fun _ => JsValue.undef)
          [("parent", JsValue.obj [("name", JsValue.str "p")])] =
        [("parent", JsValue.obj [("name", JsValue.str "p")])]) :=
  ⟨⟨rfl,
    ((gatsbyPath_parent_single_hop [".js"]
        (fun _ => JsValue.obj [("name", JsValue.str "p")])
        [("parent", JsValue.str "node-1"), ("slug", JsValue.str "hello")]
        "\x7bPost.slug\x7d.js").1 "node-1" rfl).1⟩,
   ⟨fun _ h => JsValue.noConfusion (Option.some.inj h),
    ((gatsbyPath_parent_single_hop [".js"] (fun _ => JsValue.undef)
        [("parent", JsValue.obj [("name", JsValue.str "p")])]
        "\x7bPost.slug\x7d.js").2
      (fun _ h => JsValue.noConfusion (Option.some.inj h))).1⟩⟩

/-- C9: route derivation is deterministic — two invocations of the gatsbyPath
resolver with the same file path, the same source record and parent resolvers
that agree on every identifier return the same route. -/
theorem gatsbyPath_deterministic (extensions : List String)
    (g g' : String → JsValue) (source : List (String × JsValue))
    (filePath : String) (h : ∀ s, g s = g' s) :
    gatsbyPathResolve extensions g source filePath =
      gatsbyPathResolve extensions g' source filePath := by
  have hg : g = g' := funext h
  rw [hg]

/-- Witness for C9 with two syntactically different parent resolvers that
agree on every identifier. -/
theorem gatsbyPath_deterministic_witness :
    (∀ s : String, JsValue.str s = JsValue.str (s ++ "")) ∧
    gatsbyPathResolve [".js"] (fun s => JsValue.str s)
        [("slug", JsValue.str "hello")] "\x7bPost.slug\x7d.js" =
      gatsbyPathResolve [".js"] (fun s => JsValue.str (s ++ ""))
        [("slug", JsValue.str "hello")] "\x7bPost.slug\x7d.js" :=
  ⟨fun s => by rw [String.append_empty],
   gatsbyPath_deterministic [".js"] (fun s => JsValue.str s)
     (fun s => JsValue.str (s ++ "")) [("slug", JsValue.str "hello")]
     "\x7bPost.slug\x7d.js" (fun s => by simp)⟩

/-! Heap-level model of the resolver body, for the non-mutation property:
JS objects are heap cells, `const sourceCopy = { ...source }` allocates a
fresh cell, and the parent assignment on line 175 writes only that cell. -/

abbrev Addr := Nat

/-- A heap-level JS value: a primitive string, a reference to a heap object,
or undefined. -/
inductive HeapValue where
  | str (s : String)
  | ref (a : Addr)
  | undefVal
deriving DecidableEq, Repr

abbrev JsObjFields := List (String × HeapValue)

/-- The JS object heap. -/
abbrev JsHeap := Addr → Option JsObjFields

def heapUpdate (h : JsHeap) (a : Addr) (fs : JsObjFields) : JsHeap :=
  fun a' => if a' = a then some fs else h a'

def lookupHeapField : JsObjFields → String → Option HeapValue
  | [], _ => none
  | (k', v) :: rest, k => if k' = k then some v else lookupHeapField rest k

def setHeapField : JsObjFields → String → HeapValue → JsObjFields
  | [], k, v => [(k, v)]
  | (k', v') :: rest, k, v =>
    if k' = k then (k, v) :: rest else (k', v') :: setHeapField rest k v

/-- Lines 166-176 at heap level: the spread copies the source object's fields
into the fresh cell; when the source's parent field is a string identifier,
the parent assignment then overwrites the fresh cell (and only it) with the
field list whose parent is `getNode` of that identifier. Returns the heap
after both steps together with the copy's address. -/
def resolveOnHeap (getNode : String → HeapValue) (h : JsHeap)
    (sourceAddr fresh : Addr) : JsHeap × Addr :=
  match lookupHeapField ((h sourceAddr).getD []) "parent" with
  | some (HeapValue.str s) =>
    (heapUpdate (heapUpdate h fresh ((h sourceAddr).getD [])) fresh
        (setHeapField ((h sourceAddr).getD []) "parent" (getNode s)),
      fresh)
  | _ => (heapUpdate h fresh ((h sourceAddr).getD []), fresh)

/-- Read a heap value into a pure value, following references for at most
`fuel` hops; route derivation only reads the heap. -/
def materializeHeapValue (h : JsHeap) : Nat → HeapValue → JsValue
  | _, .str s => JsValue.str s
  | 0, .ref _ => JsValue.undef
  | fuel + 1, .ref a =>
    match h a with
    | some fs => JsValue.obj (fs.map fun kv => (kv.1, materializeHeapValue h fuel kv.2))
    | none => JsValue.undef
  | _, .undefVal => JsValue.undef

/-- The gatsbyPath resolver at heap level (lines 162-181): copy and mutate
the copy, validate the filePath argument, and derive the route from the
materialized copy. The second component is the heap after resolution. -/
def gatsbyPathResolveOnHeap (extensions : List String)
    (getNode : String → HeapValue) (h : JsHeap) (sourceAddr fresh : Addr)
    (filePath : String) (fuel : Nat) :
    Except PageCreatorError String × JsHeap :=
  match resolveOnHeap getNode h sourceAddr fresh with
  | (h2, copyAddr) =>
    (match validatePathQuery filePath extensions with
     | .error e => Except.error e
     | .ok _ => derivePath filePath (materializeHeapValue h2 fuel (HeapValue.ref copyAddr)),
     h2)

theorem resolveOnHeap_frame (getNode : String → HeapValue) (h : JsHeap)
    (sourceAddr fresh : Addr) (a : Addr) (ha : a ≠ fresh) :
    (resolveOnHeap getNode h sourceAddr fresh).1 a = h a := by
  unfold resolveOnHeap
  cases hl : lookupHeapField ((h sourceAddr).getD []) "parent" with
  | none => simp [heapUpdate, ha]
  | some v => cases v <;> simp [heapUpdate, ha]

/-- C10: the gatsbyPath resolver never mutates the caller's source record —
resolution writes only the freshly allocated shallow copy, so after
resolution every heap cell other than the copy, in particular the source
record with its parent field, holds exactly what it held before, even when a
string parent identifier was replaced by a realized record on the copy. -/
theorem gatsbyPath_no_source_mutation (extensions : List String)
    (getNode : String → HeapValue) (h : JsHeap) (sourceAddr fresh : Addr)
    (filePath : String) (fuel : Nat) (a : Addr) (ha : a ≠ fresh) :
    (gatsbyPathResolveOnHeap extensions getNode h sourceAddr fresh filePath fuel).2 a
      = h a := by
  have hsnd :
      (gatsbyPathResolveOnHeap extensions getNode h sourceAddr fresh filePath fuel).2
        = (resolveOnHeap getNode h sourceAddr fresh).1 := by
    unfold gatsbyPathResolveOnHeap
    cases resolveOnHeap getNode h sourceAddr fresh with
    | mk h2 c => rfl
  rw [hsnd]
  exact resolveOnHeap_frame getNode h sourceAddr fresh a ha

/-- Witness for C10: a concrete source object at address 0 whose string
parent identifier is replaced on the copy at address 1; the source cell is
unchanged after resolution. -/
theorem gatsbyPath_no_source_mutation_witness :
    (0 : Addr) ≠ 1 ∧
    (gatsbyPathResolveOnHeap [".js"] (fun _ => HeapValue.ref 2)
        (fun a => if a = 0 then
            some [("parent", HeapValue.str "n1"), ("slug", HeapValue.str "hello")]
          else if a = 2 then some [("name", HeapValue.str "p")] else none)
        0 1 "\x7bPost.slug\x7d.js" 4).2 0 =
      (fun a : Addr => if a = 0 then
          some [("parent", HeapValue.str "n1"), ("slug", HeapValue.str "hello")]
        else if a = 2 then some [("name", HeapValue.str "p")] else none) 0 :=
  ⟨by decide,
   gatsbyPath_no_source_mutation [".js"] (fun _ => HeapValue.ref 2)
     (fun a => if a = 0 then
         some [("parent", HeapValue.str "n1"), ("slug", HeapValue.str "hello")]
       else if a = 2 then some [("name", HeapValue.str "p")] else none)
     0 1 "\x7bPost.slug\x7d.js" 4 0 (by decide)⟩

end PageCreator
